import Mathlib

/-!
Verification of the lexicon-to-valibot schema compiler.

The development shallowly embeds the compiler found in `src/index.ts` and
`src/converters/{primitives,atproto,complex}.ts`:

* `LexNode` is the typed AST of lexicon schema nodes (the `LexUserType`
  variants consumed by `convertType`).
* `VSchema` is the AST of built valibot validators (the combinators the
  compiler actually uses: `v.string`, `v.pipe`, `v.picklist`, `v.literal`,
  `v.object`, `v.array`, `v.union`, `v.optional`, `v.nullable`, `v.lazy`,
  `v.custom`, `v.unknown`, `v.never`, `v.instance(Uint8Array)`).
* `Val` is the universe of JavaScript runtime values a validator can be
  applied to (`undefined`, `null`, booleans, numbers as rationals, strings,
  arrays, plain objects as association lists, `Uint8Array` byte buffers,
  and `BlobRef` class instances from the atproto SDK).
* `convertType`, `convertObject`, `convertArray`, ... transcribe the
  converter functions; `resolvePure`/`resolveRefStep` transcribe the
  closure returned by `createRefResolver` (`resolveRefStep` includes the
  mutable `cache` map and the `console.warn` emissions, `resolvePure` is
  the cache-free resolution used by the validator semantics; the two are
  related by `resolveRefStep_empty_cache`).
* `runV` gives the acceptance semantics of a built validator, i.e. what
  `v.safeParse(schema, value).success` computes; exceptions thrown during
  parsing (the `Ref not found` error thrown inside the lazy resolver, and
  the `Unknown schema type` error thrown by the dispatcher) surface as
  `Except.error`.

Both `convertType` and `runV` take a numeric fuel so that they are
structural recursions on `Nat` (hence kernel-computable); the source
recursions are bounded by the depth of the schema node respectively by the
depth of the value plus the number of lazy-ref dereferences, so any
sufficiently large fuel gives the source behaviour, and all theorems state
their fuel offsets explicitly.

String `format` checks (`v.isoTimestamp`, `v.url`, and the nine regex
checks) are modelled by an abstract predicate parameter `fmtOk`: no claim
depends on which strings a format accepts, and `v.url` in particular is
implemented with the host `URL` parser, which has no faithful pure
transcription.  All results quantify over `fmtOk`.
-/

/-- The string `format` tags understood by `convertString`. -/
inductive StrFormat where
  | datetime | uri | atUri | did | handle | nsid | cid | tid
  | recordKey | language | atIdentifier
deriving DecidableEq, Repr

/-- The `format` option of the compiler: `'sdk' | 'wire'`. -/
inductive BlobFormat where
  | sdk | wire
deriving DecidableEq, Repr

/-- Payload of a lexicon `boolean` node. -/
structure LexBooleanT where
  const : Option Bool := none
deriving DecidableEq, Repr

/-- Payload of a lexicon `integer` node. -/
structure LexIntegerT where
  minimum : Option Int := none
  maximum : Option Int := none
  enum : Option (List Int) := none
  const : Option Int := none
deriving DecidableEq, Repr

/-- Payload of a lexicon `string` node. -/
structure LexStringT where
  minLength : Option Nat := none
  maxLength : Option Nat := none
  enum : Option (List String) := none
  const : Option String := none
  format : Option StrFormat := none
deriving DecidableEq, Repr

/-- Payload of a lexicon `bytes` node. -/
structure LexBytesT where
  minLength : Option Nat := none
  maxLength : Option Nat := none
deriving DecidableEq, Repr

/-- Payload of a lexicon `blob` node.  `accept` and `maxSize` are carried
by the source type but deliberately not enforced by `convertBlob`
("we validate the structure but don't enforce accept/maxSize"). -/
structure LexBlobT where
  accept : List String := []
  maxSize : Option Nat := none
deriving DecidableEq, Repr

/-- Lexicon schema nodes: the typed variants of `LexUserType` that
`convertType` dispatches on.  A `record` node carries its `record` body,
which the atproto types fix to be an object schema, so the object payload
is inlined.  The three XRPC kinds carry no payload here because
`lexiconToValibot` skips them and `convertType` throws on them; no claim
concerns the endpoint assembler's internals. -/
inductive LexNode where
  | lboolean (s : LexBooleanT)
  | linteger (s : LexIntegerT)
  | lstring (s : LexStringT)
  | lunknown
  | lbytes (s : LexBytesT)
  | lcidLink
  | lblob (s : LexBlobT)
  | ltoken
  | larray (items : LexNode) (minLength : Option Nat) (maxLength : Option Nat)
  | lobject (required : List String) (nullable : List String)
      (properties : Option (List (String × LexNode)))
  | lref (ref : String)
  | lunion (refs : List String)
  | lrecord (required : List String) (nullable : List String)
      (properties : Option (List (String × LexNode)))
  | lquery
  | lprocedure
  | lsubscription
deriving Repr

/-- JavaScript runtime values, as far as the built validators inspect them.
`vnum` carries a rational: JS numbers distinguish integers from
non-integers (`Number.isInteger`), which `v.integer()` checks.  `vbytes`
is a `Uint8Array` instance; `vblobref` is a `BlobRef` class instance from
`@atproto/lexicon` (fields `ref`, `mimeType`, `size`), the only values for
which `value instanceof BlobRef` holds. -/
inductive Val where
  | vundefined
  | vnull
  | vbool (b : Bool)
  | vnum (q : Rat)
  | vstr (s : String)
  | varr (xs : List Val)
  | vobj (fields : List (String × Val))
  | vbytes (bs : List Nat)
  | vblobref (ref : Val) (mimeType : String) (size : Rat)
deriving Repr

/-- The checks `convertInteger` pushes into `v.pipe(v.number(), ...)`. -/
inductive NumCheck where
  | integer
  | minValue (m : Int)
  | maxValue (m : Int)
deriving DecidableEq, Repr

/-- The checks `convertString` pushes into `v.pipe(v.string(), ...)`. -/
inductive StrCheck where
  | minLength (n : Nat)
  | maxLength (n : Nat)
  | fmtChk (f : StrFormat)
deriving DecidableEq, Repr

/-- The checks `convertArray` pushes into `v.pipe(v.array(...), ...)`. -/
inductive ArrCheck where
  | minLength (n : Nat)
  | maxLength (n : Nat)
deriving DecidableEq, Repr

/-- Built valibot validators, restricted to the combinators the compiler
produces.  `sLazyRef r` is `v.lazy(() => ctx.resolveRef(r))`: the captured
resolver is always the one created by `createRefResolver` for the current
compilation, so the embedding stores only the ref string and supplies the
resolution environment at validation time.  `sBlobSdk`/`sBlobWire` are the
two `v.custom` blob schemas of `converters/atproto.ts`. -/
inductive VSchema where
  | sBoolean
  | sLitBool (b : Bool)
  | sLitInt (n : Int)
  | sLitStr (s : String)
  | sPicklistI (xs : List Int)
  | sPicklistS (xs : List String)
  | sNumber (checks : List NumCheck)
  | sString (checks : List StrCheck)
  | sUnknown
  | sNever
  | sBytes (minLength : Option Nat) (maxLength : Option Nat)
  | sBlobSdk
  | sBlobWire
  | sOptional (s : VSchema)
  | sNullable (s : VSchema)
  | sArray (item : VSchema) (checks : List ArrCheck)
  | sObject (entries : List (String × VSchema))
  | sUnion (branches : List VSchema)
  | sLazyRef (ref : String)
deriving Repr

/-- Errors thrown during compilation or during a parse that dereferences a
lazy ref: `Unknown schema type: ...` from the dispatcher and
`Ref not found: ... (resolved to ...)` from the resolver.  `outOfFuel` is
the embedding's totality marker and never occurs at sufficient fuel. -/
inductive RunErr where
  | unknownType (tag : String)
  | refNotFound (ref : String) (resolvedRef : String)
  | outOfFuel
deriving DecidableEq, Repr

/-- `typeof` on an embedded value. -/
def jsTypeof : Val → String
  | .vundefined => "undefined"
  | .vnull => "object"
  | .vbool _ => "boolean"
  | .vnum _ => "number"
  | .vstr _ => "string"
  | .varr _ => "object"
  | .vobj _ => "object"
  | .vbytes _ => "object"
  | .vblobref _ _ _ => "object"

/-- `typeof value === "object" && value !== null`. -/
def isJsObjectNotNull : Val → Bool
  | .vnull => false
  | .vundefined => false
  | .vbool _ => false
  | .vnum _ => false
  | .vstr _ => false
  | _ => true

/-- JavaScript property access `value[key]`, yielding `undefined` when the
property is absent.  Arrays and byte buffers expose `length`; a `BlobRef`
instance exposes its `ref`, `mimeType` and `size` fields (and no `cid` or
`$type` own-property). -/
def getField : Val → String → Val
  | .vobj fields, k => ((fields.lookup k).getD .vundefined)
  | .varr xs, k => if k = "length" then .vnum xs.length else .vundefined
  | .vbytes bs, k => if k = "length" then .vnum bs.length else .vundefined
  | .vblobref r m s, k =>
      if k = "ref" then r
      else if k = "mimeType" then .vstr m
      else if k = "size" then .vnum s
      else .vundefined
  | _, _ => .vundefined

/-- `isWireBlobRef` from `converters/atproto.ts`: wire-format blob
reference `{$type: "blob", ref: {$link: string}, mimeType: string,
size: number}`. -/
def isWireBlobRef (value : Val) : Bool :=
  isJsObjectNotNull value &&
  (match getField value "$type" with | .vstr t => t == "blob" | _ => false) &&
  (let r := getField value "ref"
   (jsTypeof r == "object") && (match r with | .vnull => false | _ => true) &&
   (jsTypeof (getField r "$link") == "string")) &&
  (jsTypeof (getField value "mimeType") == "string") &&
  (jsTypeof (getField value "size") == "number")

/-- `isSdkBlobRef` from `converters/atproto.ts`:
`value instanceof BlobRef`, a nominal class-instance check, true exactly
for `BlobRef` instances. -/
def isSdkBlobRef (value : Val) : Bool :=
  match value with
  | .vblobref _ _ _ => true
  | _ => false

/-- `isUntypedBlobRef` from `converters/atproto.ts`: legacy shape
`{cid: string, mimeType: string}` (extra fields are not inspected). -/
def isUntypedBlobRef (value : Val) : Bool :=
  isJsObjectNotNull value &&
  (jsTypeof (getField value "cid") == "string") &&
  (jsTypeof (getField value "mimeType") == "string")

/-- `convertBoolean` from `converters/primitives.ts`. -/
def convertBoolean (schema : LexBooleanT) : VSchema :=
  match schema.const with
  | some b => .sLitBool b
  | none => .sBoolean

/-- `convertInteger` from `converters/primitives.ts`.  The `checks` list is
built first (`v.integer()` plus optional `v.minValue`/`v.maxValue`); a
defined non-empty `enum` returns `v.picklist` (dropping the checks), else a
defined `const` returns `v.literal`, else `v.pipe(v.number(), ...checks)`.
The pattern `some (e :: es)` is `schema.enum !== undefined &&
schema.enum.length > 0`. -/
def convertInteger (schema : LexIntegerT) : VSchema :=
  let checks : List NumCheck :=
    [NumCheck.integer] ++
    (match schema.minimum with | some m => [.minValue m] | none => []) ++
    (match schema.maximum with | some m => [.maxValue m] | none => [])
  match schema.enum with
  | some (e :: es) => .sPicklistI (e :: es)
  | _ =>
    match schema.const with
    | some c => .sLitInt c
    | none => .sNumber checks

/-- `convertString` from `converters/primitives.ts`.  Length checks are
pushed first; a defined non-empty `enum` returns `v.picklist`, else a
defined `const` returns `v.literal`, else the `format` check (when
present) is appended and the result is `v.string()` piped through the
checks (`v.string()` alone when the list is empty, with identical
acceptance). -/
def convertString (schema : LexStringT) : VSchema :=
  let checks : List StrCheck :=
    (match schema.minLength with | some n => [.minLength n] | none => []) ++
    (match schema.maxLength with | some n => [.maxLength n] | none => [])
  match schema.enum with
  | some (e :: es) => .sPicklistS (e :: es)
  | _ =>
    match schema.const with
    | some c => .sLitStr c
    | none =>
      let checks := checks ++
        (match schema.format with | some f => [.fmtChk f] | none => [])
      .sString checks

/-- `convertUnknown` from `converters/primitives.ts`: `v.unknown()`. -/
def convertUnknown : VSchema := .sUnknown

/-- `convertBytes` from `converters/primitives.ts`:
`v.instance(Uint8Array)`, piped through a length check when either bound
is present (the no-bound early return has identical acceptance). -/
def convertBytes (schema : LexBytesT) : VSchema :=
  .sBytes schema.minLength schema.maxLength

/-- `blobSdkSchema` from `converters/atproto.ts`:
`v.custom(value => isSdkBlobRef(value) || isUntypedBlobRef(value))`. -/
def blobSdkSchema : VSchema := .sBlobSdk

/-- `blobWireSchema` from `converters/atproto.ts`:
`v.custom(value => isWireBlobRef(value) || isUntypedBlobRef(value))`. -/
def blobWireSchema : VSchema := .sBlobWire

/-- `convertBlob` from `converters/atproto.ts`:
`format === 'sdk' ? blobSdkSchema : blobWireSchema`. -/
def convertBlob (_schema : LexBlobT) (format : BlobFormat) : VSchema :=
  if format = .sdk then blobSdkSchema else blobWireSchema

/-- `cidLinkSchema` from `converters/atproto.ts`:
`v.object({$link: v.string()})`. -/
def cidLinkSchema : VSchema := .sObject [("$link", .sString [])]

/-- `convertCidLink` from `converters/atproto.ts`. -/
def convertCidLink : VSchema := cidLinkSchema

/-- `convertToken` from `converters/atproto.ts`: `v.string()`. -/
def convertToken : VSchema := .sString []

/-- `convertRef` from `converters/complex.ts`:
`v.lazy(() => ctx.resolveRef(schema.ref))`. -/
def convertRef (ref : String) : VSchema := .sLazyRef ref

/-- `convertUnion` from `converters/complex.ts`: `v.never()` for zero
refs, a single lazy ref for one, and `v.union` of lazy refs for two or
more. -/
def convertUnion (refs : List String) : VSchema :=
  match refs with
  | [] => .sNever
  | [r] => .sLazyRef r
  | _ => .sUnion (refs.map (fun r => .sLazyRef r))

/-- `convertArray` from `converters/complex.ts`, with the recursive
dispatcher passed as a callback exactly as in the source.  Builds the item
validator, then pipes length checks (the empty-checks early return has
identical acceptance). -/
def convertArray (convertTypeF : LexNode → Except RunErr VSchema)
    (items : LexNode) (minLength maxLength : Option Nat) :
    Except RunErr VSchema := do
  let itemsSchema ← convertTypeF items
  let checks : List ArrCheck :=
    (match minLength with | some n => [.minLength n] | none => []) ++
    (match maxLength with | some n => [.maxLength n] | none => [])
  return .sArray itemsSchema checks

/-- `convertObject` from `converters/complex.ts`, with the recursive
dispatcher passed as a callback exactly as in the source.  For each
declared property: build its validator, wrap in `v.nullable` when the name
is in the `nullable` set, then in `v.optional` when it is not in the
`required` set; absent `properties` yields `v.object({})`. -/
def convertEntries (convertTypeF : LexNode → Except RunErr VSchema)
    (required nullable : List String) :
    List (String × LexNode) → Except RunErr (List (String × VSchema))
  | [] => return []
  | kv :: rest => do
    let propSchema ← convertTypeF kv.2
    let propSchema := if nullable.contains kv.1 then .sNullable propSchema
      else propSchema
    let propSchema := if required.contains kv.1 then propSchema
      else .sOptional propSchema
    let tail ← convertEntries convertTypeF required nullable rest
    return (kv.1, propSchema) :: tail

def convertObject (convertTypeF : LexNode → Except RunErr VSchema)
    (required nullable : List String)
    (properties : Option (List (String × LexNode))) :
    Except RunErr VSchema := do
  match properties with
  | none => return .sObject []
  | some props =>
    let entries ← convertEntries convertTypeF required nullable props
    return .sObject entries

/-- `convertType` from `src/index.ts`: the tag dispatcher.  `record`
delegates to `convertObject` on its `record` body; `query`, `procedure`
and `subscription` are not handled and fall into the
`Unknown schema type` throw.  The fuel argument makes the recursion
structural; the source recursion is structural on the node, so any fuel
larger than the node's depth gives the source behaviour. -/
def convertType (blobFormat : BlobFormat) : Nat → LexNode → Except RunErr VSchema
  | 0 => fun _ => .error .outOfFuel
  | fuel + 1 => fun schema =>
    match schema with
    | .lboolean s => return convertBoolean s
    | .linteger s => return convertInteger s
    | .lstring s => return convertString s
    | .lunknown => return convertUnknown
    | .lbytes s => return convertBytes s
    | .lcidLink => return convertCidLink
    | .lblob s => return convertBlob s blobFormat
    | .ltoken => return convertToken
    | .larray items minL maxL =>
        convertArray (convertType blobFormat fuel) items minL maxL
    | .lobject req nul props =>
        convertObject (convertType blobFormat fuel) req nul props
    | .lref r => return convertRef r
    | .lunion refs => return convertUnion refs
    | .lrecord req nul props =>
        convertObject (convertType blobFormat fuel) req nul props
    | .lquery => .error (.unknownType "query")
    | .lprocedure => .error (.unknownType "procedure")
    | .lsubscription => .error (.unknownType "subscription")

/-- `isXrpcDef` from `src/index.ts`. -/
def isXrpcDef : LexNode → Bool
  | .lquery => true
  | .lprocedure => true
  | .lsubscription => true
  | _ => false

/-- `isRecordDef` from `src/index.ts`. -/
def isRecordDef : LexNode → Bool
  | .lrecord _ _ _ => true
  | _ => false

/-- The resolution environment captured by every lazy ref of one
compilation: the document id and defs, the caller-supplied external ref
registry, and the blob format (the arguments `createRefResolver` closes
over, minus the mutable cache). -/
structure Env where
  lexiconId : String
  defs : List (String × LexNode)
  externalRefs : List (String × VSchema)
  blobFormat : BlobFormat

/-- `ref.startsWith("#")`, computed on the character list so that concrete
evaluations reduce in the kernel. -/
def startsWithHash (s : String) : Bool :=
  match s.data with
  | c :: _ => c == '#'
  | [] => false

/-- `ref.includes("#")`, computed on the character list. -/
def containsHash (s : String) : Bool :=
  s.data.contains '#'

/-- Ref normalization from `createRefResolver`: `#name` becomes
`lexiconId#name`, a bare `ns` becomes `ns#main`, anything else is kept. -/
def normalizeRef (lexiconId ref : String) : String :=
  if startsWithHash ref then lexiconId ++ ref
  else if ¬ containsHash ref then ref ++ "#main"
  else ref

/-- The `resolvedRef.includes("#") ? resolvedRef.split("#") : [resolvedRef,
"main"]` destructuring: the first `split("#")` segment (before the first
`#`) and the second (between the first and second `#`, possibly empty);
later segments are dropped, as with array destructuring. -/
def splitResolved (resolvedRef : String) : String × String :=
  if containsHash resolvedRef then
    (⟨resolvedRef.data.takeWhile (fun c => ¬ c = '#')⟩,
     ⟨((resolvedRef.data.dropWhile (fun c => ¬ c = '#')).drop 1).takeWhile
        (fun c => ¬ c = '#')⟩)
  else (resolvedRef, "main")

/-- The `console.warn` message emitted for an unresolved external ref. -/
def warnUnresolved (ref : String) : String :=
  "External ref not resolved: " ++ ref ++ " - provide it in externalRefs option"

/-- Cache-free resolution: what one call of the resolver closure returned
by `createRefResolver` computes, ignoring the cache (external registry
under the original then the normalized key, accept-any fallback for a
foreign namespace, local def conversion, fatal `Ref not found`).  The
cache never changes the returned validator — see
`resolveRefStep_empty_cache` and `resolveRefStep_idempotent` — so this is
the resolution semantics used by `runV`. -/
def resolvePure (fuel : Nat) (env : Env) (ref : String) : Except RunErr VSchema :=
  let resolvedRef := normalizeRef env.lexiconId ref
  match env.externalRefs.lookup ref with
  | some s => .ok s
  | none =>
    match env.externalRefs.lookup resolvedRef with
    | some s => .ok s
    | none =>
      let p := splitResolved resolvedRef
      if p.1 ≠ env.lexiconId then .ok .sUnknown
      else
        match env.defs.lookup p.2 with
        | some d => convertType env.blobFormat fuel d
        | none => .error (.refNotFound ref resolvedRef)

/-- One call of the resolver closure returned by `createRefResolver`, with
the mutable cache threaded explicitly (a cons-list whose first-match
lookup models `Map.get`/`Map.set`) and the `console.warn` emissions
returned as the third component (the global console, modelled
out-of-band).  Branch order is the source's: cache, external registry
(original key then normalized key), foreign-namespace fallback, local
def, fatal `Ref not found`. -/
def resolveRefStep (fuel : Nat) (env : Env)
    (cache : List (String × VSchema)) (ref : String) :
    Except RunErr (VSchema × List (String × VSchema) × List String) :=
  let resolvedRef := normalizeRef env.lexiconId ref
  match cache.lookup resolvedRef with
  | some s => .ok (s, cache, [])
  | none =>
    match env.externalRefs.lookup ref with
    | some s => .ok (s, (resolvedRef, s) :: cache, [])
    | none =>
      match env.externalRefs.lookup resolvedRef with
      | some s => .ok (s, (resolvedRef, s) :: cache, [])
      | none =>
        let p := splitResolved resolvedRef
        if p.1 ≠ env.lexiconId then
          .ok (.sUnknown, cache, [warnUnresolved ref])
        else
          match env.defs.lookup p.2 with
          | some d =>
            match convertType env.blobFormat fuel d with
            | .ok s => .ok (s, (resolvedRef, s) :: cache, [])
            | .error e => .error e
          | none => .error (.refNotFound ref resolvedRef)

/-- `v.minValue`/`v.maxValue` are inclusive; `v.integer()` is
`Number.isInteger`. -/
def numCheckOk (q : Rat) : NumCheck → Bool
  | .integer => decide (q.den = 1)
  | .minValue m => decide ((m : Rat) ≤ q)
  | .maxValue m => decide (q ≤ (m : Rat))

/-- String checks; `lengths are inclusive bounds on the string length, and
a format check consults the abstract format predicate. -/
def strCheckOk (fmtOk : StrFormat → String → Bool) (u : String) : StrCheck → Bool
  | .minLength n => decide (n ≤ u.length)
  | .maxLength n => decide (u.length ≤ n)
  | .fmtChk f => fmtOk f u

/-- Array length checks (inclusive). -/
def arrCheckOk (len : Nat) : ArrCheck → Bool
  | .minLength n => decide (n ≤ len)
  | .maxLength n => decide (len ≤ n)

/-- Byte-buffer length check of `convertBytes`. -/
def bytesLenOk (minL maxL : Option Nat) (len : Nat) : Bool :=
  (match minL with | some n => decide (n ≤ len) | none => true) &&
  (match maxL with | some n => decide (len ≤ n) | none => true)

/-- Acceptance semantics of a built validator:
`v.safeParse(schema, value).success`, with exceptions thrown during the
parse (by the lazy resolver) surfacing as `Except.error`.
Key points of the valibot semantics being modelled:
* `v.object` accepts any non-null value of `typeof === "object"`, ignores
  undeclared keys, and runs every declared entry's schema on the property
  value (`undefined` when absent) — a missing or `undefined` property is
  accepted exactly when the entry schema accepts `undefined`, which is how
  `v.optional` (and `v.unknown`, cf. spec §4.4 "accepts anything,
  including absence") accept absence;
* `v.union` tries branches in declared order and stops at the first
  success;
* `v.lazy` invokes its getter only here, at parse time, so a thrown
  `Ref not found` escapes the parse;
* `v.custom(p)` accepts exactly the values satisfying `p`.
The fuel decreases at every recursion level; the source recursion is
bounded by the value depth plus schema depth plus lazy dereferences, so
any sufficiently large fuel gives the source behaviour, and theorems state
their fuel offsets explicitly. -/
def runV (fmtOk : StrFormat → String → Bool) (env : Env) :
    Nat → VSchema → Val → Except RunErr Bool
  | 0 => fun _ _ => .error .outOfFuel
  | fuel + 1 => fun s v =>
    match s with
    | .sBoolean => return (match v with | .vbool _ => true | _ => false)
    | .sLitBool b => return (match v with | .vbool b' => b' == b | _ => false)
    | .sLitInt n => return (match v with
        | .vnum q => decide (q = (n : Rat)) | _ => false)
    | .sLitStr t => return (match v with | .vstr u => u == t | _ => false)
    | .sPicklistI xs => return (match v with
        | .vnum q => xs.any (fun n => decide ((n : Rat) = q)) | _ => false)
    | .sPicklistS xs => return (match v with
        | .vstr u => xs.contains u | _ => false)
    | .sNumber checks => return (match v with
        | .vnum q => checks.all (numCheckOk q) | _ => false)
    | .sString checks => return (match v with
        | .vstr u => checks.all (strCheckOk fmtOk u) | _ => false)
    | .sUnknown => return true
    | .sNever => return false
    | .sBytes minL maxL => return (match v with
        | .vbytes bs => bytesLenOk minL maxL bs.length | _ => false)
    | .sBlobSdk => return (isSdkBlobRef v || isUntypedBlobRef v)
    | .sBlobWire => return (isWireBlobRef v || isUntypedBlobRef v)
    | .sOptional s' =>
        match v with
        | .vundefined => return true
        | _ => runV fmtOk env fuel s' v
    | .sNullable s' =>
        match v with
        | .vnull => return true
        | _ => runV fmtOk env fuel s' v
    | .sArray item checks =>
        match v with
        | .varr xs => do
          let b ← xs.foldlM (fun acc x => do
            let bx ← runV fmtOk env fuel item x
            return (acc && bx)) true
          return (b && checks.all (arrCheckOk xs.length))
        | _ => return false
    | .sObject entries =>
        if isJsObjectNotNull v then
          entries.foldlM (fun acc kv => do
            let b ← runV fmtOk env fuel kv.2 (getField v kv.1)
            return (acc && b)) true
        else return false
    | .sUnion branches =>
        branches.foldlM (fun acc b =>
          if acc then return true else runV fmtOk env fuel b v) false
    | .sLazyRef ref => do
        let s' ← resolvePure fuel env ref
        runV fmtOk env fuel s' v

/-- The input document shape (`lexicon: 1`, `description` and `revision`
carry no compilation behaviour and are omitted).  `defs` is an ordered
association list modelling `Object.entries(lexicon.defs)` (unique keys). -/
structure LexiconInput where
  id : String
  defs : List (String × LexNode)

/-- `LexiconToValibotOptions`: external refs plus the optional
`format` (`options.format ?? 'sdk'`). -/
structure LexiconToValibotOptions where
  externalRefs : List (String × VSchema) := []
  format : Option BlobFormat := none

/-- The resolution environment `lexiconToValibot` fixes for all lazy refs
of one compilation. -/
def envOf (lexicon : LexiconInput) (options : LexiconToValibotOptions) : Env :=
  ⟨lexicon.id, lexicon.defs, options.externalRefs, options.format.getD .sdk⟩

/-- JavaScript object-property assignment on an association list: replace
in place when the key exists, else append. -/
def jsSet (fields : List (String × α)) (k : String) (x : α) :
    List (String × α) :=
  if fields.any (fun kv => kv.1 == k) then
    fields.map (fun kv => if kv.1 == k then (kv.1, x) else kv)
  else fields ++ [(k, x)]

/-- JavaScript object-spread `{...base, ...extra}` on association lists. -/
def jsSpread (base extra : List (String × α)) : List (String × α) :=
  extra.foldl (fun acc kv => jsSet acc kv.1 kv.2) base

/-- `'entries' in schema ? schema.entries : {}`: the declared entries of a
built object validator, empty for any other validator. -/
def entriesOf : VSchema → List (String × VSchema)
  | .sObject es => es
  | _ => []

/-- The body of `lexiconToValibot`'s per-definition loop: skip XRPC defs,
dispatch the node, and under `wire` format re-wrap a `record` def as
`v.object({$type: v.literal(t), ...entries})` where `t` is `id` for
`main` and `id#defName` otherwise (object-spread semantics: an `entries`
key named `$type` overrides the injected literal). -/
def compileDef (fuel : Nat) (blobFormat : BlobFormat) (lexiconId : String)
    (defName : String) (d : LexNode) : Except RunErr (Option VSchema) :=
  if isXrpcDef d then return none
  else do
    let schema ← convertType blobFormat fuel d
    if blobFormat = .wire ∧ isRecordDef d then
      let t := if defName = "main" then lexiconId
        else lexiconId ++ "#" ++ defName
      return some (.sObject (jsSpread [("$type", .sLitStr t)] (entriesOf schema)))
    else
      return some schema

/-- `lexiconToValibot` from `src/index.ts`: create the per-compilation
cache and resolver (both only reachable through the lazy refs, hence
absent here), then fold `compileDef` over the document's definitions,
assigning each compiled validator into the result map.  Fatal dispatcher
errors abort the whole compilation with no partial map. -/
def lexiconToValibot (fuel : Nat) (lexicon : LexiconInput)
    (options : LexiconToValibotOptions) :
    Except RunErr (List (String × VSchema)) :=
  let blobFormat := options.format.getD .sdk
  lexicon.defs.foldlM (fun result kv => do
    match ← compileDef fuel blobFormat lexicon.id kv.1 kv.2 with
    | none => return result
    | some schema => return (jsSet result kv.1 schema)) []

/-- The `$type` literal injected for a wire-format record def: `id` for
`main`, `id#defName` otherwise. -/
def recordTypeTag (lexiconId defName : String) : String :=
  if defName = "main" then lexiconId else lexiconId ++ "#" ++ defName

/-- Acceptance of `v.picklist` over integer literals (strict `===`
comparison against each member). -/
def intMemberOk (xs : List Int) : Val → Bool
  | .vnum q => xs.any (fun n => decide ((n : Rat) = q))
  | _ => false

/-- Acceptance of `v.literal` over an integer literal. -/
def intLitOk (c : Int) : Val → Bool
  | .vnum q => decide (q = (c : Rat))
  | _ => false

/-- The checks list `convertInteger` builds before its `enum`/`const`
branches. -/
def integerChecks (minimum maximum : Option Int) : List NumCheck :=
  [NumCheck.integer] ++
  (match minimum with | some m => [.minValue m] | none => []) ++
  (match maximum with | some m => [.maxValue m] | none => [])

/-- Acceptance of `v.pipe(v.number(), ...checks)`. -/
def numberPipeOk (checks : List NumCheck) : Val → Bool
  | .vnum q => checks.all (numCheckOk q)
  | _ => false

/-- Acceptance of `v.picklist` over string literals. -/
def strMemberOk (xs : List String) : Val → Bool
  | .vstr u => xs.contains u
  | _ => false

/-- Acceptance of `v.literal` over a string literal. -/
def strLitOk (c : String) : Val → Bool
  | .vstr u => u == c
  | _ => false

/-- The checks list `convertString` ends up piping when neither `enum` nor
`const` is present: length bounds plus the optional format check. -/
def stringChecks (minLength maxLength : Option Nat) (format : Option StrFormat) :
    List StrCheck :=
  ((match minLength with | some n => [.minLength n] | none => []) ++
   (match maxLength with | some n => [.maxLength n] | none => [])) ++
  (match format with | some f => [.fmtChk f] | none => [])

/-- Acceptance of `v.pipe(v.string(), ...checks)`. -/
def stringPipeOk (fmtOk : StrFormat → String → Bool) (checks : List StrCheck) :
    Val → Bool
  | .vstr u => checks.all (strCheckOk fmtOk u)
  | _ => false

/- Concrete fixtures used by witnesses and counterexamples. -/

/-- A trivial format oracle for concrete instances (format checks are
irrelevant to every claim). -/
def fmtTrue : StrFormat → String → Bool := fun _ _ => true

/-- A trivial resolution environment for validators that contain no refs
(mirrors the test helper context of `complex.test.ts`). -/
def envTest : Env := ⟨"test.lexicon", [], [], .sdk⟩

/-- A document whose only def contains a local ref to a def name that does
not exist. -/
def docDanglingRef : LexiconInput :=
  ⟨"com.example.bad", [("main", .lobject [] [] (some [("a", .lref "#missing")]))]⟩

/-- The validator `lexiconToValibot` builds for `docDanglingRef`'s `main`. -/
def danglingSchema : VSchema := .sObject [("a", .sOptional (.sLazyRef "#missing"))]

/-- A self-referential document: `main` is an object whose optional
`reply` property refers back to `#main`. -/
def docCyclic : LexiconInput :=
  ⟨"ex.cyc", [("main", .lobject ["text"] []
    (some [("text", .lstring {}), ("reply", .lref "#main")]))]⟩

/-- The validator `lexiconToValibot` builds for `docCyclic`'s `main`. -/
def cyclicSchema : VSchema :=
  .sObject [("text", .sString []), ("reply", .sOptional (.sLazyRef "#main"))]

/-- A document referring to a definition of a foreign namespace that is
not supplied in `externalRefs`. -/
def docExternalRef : LexiconInput :=
  ⟨"ex.loc", [("main", .lobject [] [] (some [("a", .lref "other.ns#thing")]))]⟩

/-- A wire-format record whose body itself declares a `$type` property:
the spread override makes the injected literal disappear. -/
def docTypeOverride : LexiconInput :=
  ⟨"ex.rec", [("main", .lrecord [] [] (some [("$type", .lstring {})]))]⟩

/-- A plain wire-format record document. -/
def docWireRecord : LexiconInput :=
  ⟨"ex.rec", [("main", .lrecord ["text"] []
    (some [("text", .lstring { maxLength := some 3 })]))]⟩

/-- The spec's first blob example value
`{cid: "x", mimeType: "image/png", $type: "blob"}`. -/
def wireVal1 : Val :=
  .vobj [("cid", .vstr "x"), ("mimeType", .vstr "image/png"),
    ("$type", .vstr "blob")]

/-- The spec's second blob example value
`{$type: "blob", ref: {$link: "x"}, mimeType: "image/png", size: 10}`. -/
def wireVal2 : Val :=
  .vobj [("$type", .vstr "blob"), ("ref", .vobj [("$link", .vstr "x")]),
    ("mimeType", .vstr "image/png"), ("size", .vnum 10)]

/-- The duck-typed mock of `atproto.test.ts` (`createMockBlobRef`): a plain
object exposing an object-valued `ref`, a string `mimeType` and a numeric
`size` (plus an `original` field), but *not* a `BlobRef` class instance
and without a top-level `cid`. -/
def mockBlobRef : Val :=
  .vobj [("ref", .vobj []), ("mimeType", .vstr "image/jpeg"),
    ("size", .vnum 12345),
    ("original", .vobj [("cid", .vstr "bafkrei"), ("mimeType", .vstr "image/jpeg")])]

/-- A legacy untyped blob reference `{cid, mimeType}`. -/
def untypedBlobVal : Val :=
  .vobj [("cid", .vstr "bafkrei"), ("mimeType", .vstr "image/jpeg")]

/- Supporting lemmas shared by the results below. -/

/-- Inversion for `Except.bind` ending in `.ok`. -/
theorem exceptBind_ok {ε α β : Type} {m : Except ε α} {k : α → Except ε β}
    {c : β} (h : (m >>= k) = .ok c) : ∃ b, m = .ok b ∧ k b = .ok c := by
  cases m with
  | ok b => exact ⟨b, rfl, h⟩
  | error e => simp [Bind.bind, Except.bind] at h

/-- In the object/array conjunction fold, a `.ok true` outcome forces the
starting accumulator to be `true`. -/
theorem foldlM_and_acc_true {ε α : Type} {g : α → Except ε Bool} :
    ∀ (xs : List α) (acc : Bool),
      xs.foldlM (fun a e => do
        let b ← g e
        return (a && b)) acc = .ok true → acc = true := by
  intro xs
  induction xs with
  | nil => intro acc h; simpa [pure, Except.pure] using h
  | cons x xs ih =>
    intro acc h
    rw [List.foldlM_cons] at h
    rcases exceptBind_ok h with ⟨init, h1, h2⟩
    have hinit : init = true := ih init h2
    subst hinit
    rcases exceptBind_ok h1 with ⟨b, _, hpure⟩
    have hacc : (acc && b) = true := by simpa [pure, Except.pure] using hpure
    exact ((Bool.and_eq_true _ _).mp hacc).1

/-- In the object fold, a `.ok true` outcome forces the head entry's check
to succeed. -/
theorem foldlM_and_head_true {ε α : Type} {g : α → Except ε Bool}
    {x : α} {xs : List α}
    (h : (x :: xs).foldlM (fun a e => do
        let b ← g e
        return (a && b)) true = .ok true) : g x = .ok true := by
  rw [List.foldlM_cons] at h
  rcases exceptBind_ok h with ⟨init, h1, h2⟩
  have hinit : init = true := foldlM_and_acc_true _ _ h2
  subst hinit
  rcases exceptBind_ok h1 with ⟨b, hb, hpure⟩
  have hband : (true && b) = true := by simpa [pure, Except.pure] using hpure
  have hbt : b = true := by simpa using hband
  rw [hbt] at hb
  exact hb

/-- A `lookup` returning `none` means no key of the list matches. -/
theorem lookup_none_keys {α : Type} {k : String} :
    ∀ {l : List (String × α)}, l.lookup k = none →
      ∀ kv ∈ l, kv.1 ≠ k := by
  intro l
  induction l with
  | nil => intro _ kv hkv; simp at hkv
  | cons e es ih =>
    intro h kv hkv
    obtain ⟨k1, v1⟩ := e
    rw [List.lookup] at h
    split at h
    · exact absurd h (by simp)
    · rename_i heq
      rcases List.mem_cons.mp hkv with rfl | hkv'
      · intro hcontra
        subst hcontra
        simp at heq
      · exact ih h kv hkv'

/-- `jsSet` appends when the key is absent. -/
theorem jsSet_append {α : Type} {base : List (String × α)} {k : String}
    {x : α} (h : ∀ kv ∈ base, kv.1 ≠ k) :
    jsSet base k x = base ++ [(k, x)] := by
  unfold jsSet
  have hany : base.any (fun kv => kv.1 == k) = false := by
    by_contra hc
    have hc' : base.any (fun kv => kv.1 == k) = true := by
      simpa using hc
    rcases List.any_eq_true.mp hc' with ⟨kv, hkv, hbeq⟩
    exact h kv hkv (by simpa using hbeq)
  simp [hany]

/-- Spreading entries with fresh, pairwise-distinct keys onto a base
object is concatenation. -/
theorem jsSpread_fresh {α : Type} :
    ∀ (extra base : List (String × α)),
      (∀ kv ∈ extra, ∀ kv' ∈ base, kv'.1 ≠ kv.1) →
      (extra.map Prod.fst).Nodup →
      jsSpread base extra = base ++ extra := by
  intro extra
  induction extra with
  | nil => intro base _ _; simp [jsSpread]
  | cons e es ih =>
    intro base hfresh hnodup
    have hset : jsSet base e.1 e.2 = base ++ [e] :=
      jsSet_append (fun kv hkv => hfresh e (List.mem_cons_self _ _) kv hkv)
    have hn : e.1 ∉ es.map Prod.fst ∧ (es.map Prod.fst).Nodup :=
      List.nodup_cons.mp (by rw [List.map_cons] at hnodup; exact hnodup)
    have hfresh' : ∀ kv ∈ es, ∀ kv' ∈ base ++ [e], kv'.1 ≠ kv.1 := by
      intro kv hkv kv' hkv'
      rcases List.mem_append.mp hkv' with hb | he
      · exact hfresh kv (List.mem_cons_of_mem _ hkv) kv' hb
      · have h1 : kv'.1 = e.1 := by rw [List.mem_singleton.mp he]
        intro hcontra
        apply hn.1
        rw [← h1, hcontra]
        exact List.mem_map_of_mem Prod.fst hkv
    calc jsSpread base (e :: es)
        = jsSpread (jsSet base e.1 e.2) es := by simp [jsSpread]
      _ = jsSpread (base ++ [e]) es := by rw [hset]
      _ = (base ++ [e]) ++ es := ih (base ++ [e]) hfresh' hn.2
      _ = base ++ e :: es := by simp

/-- With an empty cache (the state at the start of a compilation), one
resolver call returns exactly the cache-free resolution: the cache never
changes which validator a ref resolves to. -/
theorem resolveRefStep_empty_cache (fuel : Nat) (env : Env) (ref : String) :
    (resolveRefStep fuel env [] ref).map (fun r => r.1) =
      resolvePure fuel env ref := by
  unfold resolveRefStep resolvePure
  cases h1 : env.externalRefs.lookup ref with
  | some s => simp [List.lookup, h1, Except.map]
  | none =>
    cases h2 : env.externalRefs.lookup (normalizeRef env.lexiconId ref) with
    | some s => simp [List.lookup, h1, h2, Except.map]
    | none =>
      by_cases h3 : (splitResolved (normalizeRef env.lexiconId ref)).1 =
          env.lexiconId
      · cases h4 : env.defs.lookup
            (splitResolved (normalizeRef env.lexiconId ref)).2 with
        | some d =>
          cases h5 : convertType env.blobFormat fuel d with
          | ok s => simp [List.lookup, h1, h2, h3, h4, h5, Except.map]
          | error e => simp [List.lookup, h1, h2, h3, h4, h5, Except.map]
        | none => simp [List.lookup, h1, h2, h3, h4, Except.map]
      · simp [List.lookup, h1, h2, h3, Except.map]

/-- C10: an `enum` constraint that is present but empty compiles exactly
like an absent `enum`, for both integer and string schemas (falling
through to `const`, range/length and format handling), and only a
non-empty `enum` produces the `v.picklist` membership validator. -/
theorem C10_empty_enum_behaves_as_absent (si : LexIntegerT) (ss : LexStringT) :
    convertInteger { si with enum := some [] } =
      convertInteger { si with enum := none } ∧
    convertString { ss with enum := some [] } =
      convertString { ss with enum := none } ∧
    (∀ (e : Int) (es : List Int),
      convertInteger { si with enum := some (e :: es) } = .sPicklistI (e :: es)) ∧
    (∀ (e : String) (es : List String),
      convertString { ss with enum := some (e :: es) } = .sPicklistS (e :: es)) := by
  refine ⟨rfl, rfl, fun e es => rfl, fun e es => rfl⟩

/-- Witness for C10 at concrete schemas. -/
theorem C10_witness :
    convertInteger { enum := some [], const := some 7 } =
      convertInteger { enum := none, const := some 7 } ∧
    convertString { enum := some [], maxLength := some 3 } =
      convertString { enum := none, maxLength := some 3 } ∧
    (∀ (e : Int) (es : List Int),
      convertInteger { enum := some (e :: es), const := some 7 } =
        .sPicklistI (e :: es)) ∧
    (∀ (e : String) (es : List String),
      convertString { enum := some (e :: es), maxLength := some 3 } =
        .sPicklistS (e :: es)) :=
  C10_empty_enum_behaves_as_absent { const := some 7 } { maxLength := some 3 }

/-- C2 counterexample: the wire-format blob validator *accepts*
`{cid: "x", mimeType: "image/png", $type: "blob"}` — the claim says it
rejects it; the value matches the legacy untyped branch
(`isUntypedBlobRef`) because it carries a string `cid` and a string
`mimeType`. -/
theorem C2_counterexample :
    runV fmtTrue envTest 1 (convertBlob {} .wire) wireVal1 = .ok true ∧
    isUntypedBlobRef wireVal1 = true ∧
    isWireBlobRef wireVal1 = false := by
  exact ⟨rfl, rfl, rfl⟩

/-- C2 amended: under `format: "wire"` the blob validator accepts *both*
spec example values: the full wire shape, and also
`{cid, mimeType, $type: "blob"}` — the latter through the legacy untyped
branch, not the wire branch. -/
theorem C2_wire_blob_accepts_untyped_and_wire
    (fmtOk : StrFormat → String → Bool) (env : Env) (f : Nat) :
    runV fmtOk env (f + 1) (convertBlob {} .wire) wireVal1 = .ok true ∧
    runV fmtOk env (f + 1) (convertBlob {} .wire) wireVal2 = .ok true ∧
    isWireBlobRef wireVal2 = true ∧
    isUntypedBlobRef wireVal1 = true ∧
    isWireBlobRef wireVal1 = false := by
  exact ⟨rfl, rfl, rfl, rfl, rfl⟩

/-- Witness for C2 at a concrete format oracle, environment and fuel. -/
theorem C2_witness :
    runV fmtTrue envTest 1 (convertBlob {} .wire) wireVal1 = .ok true ∧
    runV fmtTrue envTest 1 (convertBlob {} .wire) wireVal2 = .ok true ∧
    isWireBlobRef wireVal2 = true ∧
    isUntypedBlobRef wireVal1 = true ∧
    isWireBlobRef wireVal1 = false :=
  C2_wire_blob_accepts_untyped_and_wire fmtTrue envTest 0

/-- C3: the claim (and the repo's own test `validates BlobRef-like object
(duck typing)`) says the sdk-format blob validator accepts any object
exposing an object `ref`, string `mimeType` and numeric `size`; the code's
`isSdkBlobRef` is `value instanceof BlobRef`, a nominal check, so the
validator rejects the test's own plain mock object (which also lacks the
`cid` needed for the legacy branch), while accepting an actual `BlobRef`
class instance with the same fields. -/
theorem C3_sdk_blob_is_nominal_instance_check :
    runV fmtTrue envTest 1 (convertBlob {} .sdk) mockBlobRef = .ok false ∧
    isSdkBlobRef mockBlobRef = false ∧
    isUntypedBlobRef mockBlobRef = false ∧
    runV fmtTrue envTest 1 (convertBlob {} .sdk)
      (.vblobref (.vobj []) "image/jpeg" 12345) = .ok true ∧
    runV fmtTrue envTest 1 (convertBlob {} .sdk) untypedBlobVal = .ok true := by
  exact ⟨rfl, rfl, rfl, rfl, rfl⟩

/-- C9 counterexample: an object schema with no `properties` compiles to
`v.object({})`, which *accepts* an object carrying a field — the claim
says every object value carrying any field is rejected. -/
theorem C9_counterexample :
    convertType .sdk 2 (.lobject [] [] none) = .ok (.sObject []) ∧
    runV fmtTrue envTest 1 (.sObject []) (.vobj [("x", .vnum 1)]) = .ok true := by
  exact ⟨rfl, rfl⟩

/-- C9 amended: an object schema with no `properties` compiles to
`v.object({})`, which accepts every value of object type (undeclared
fields are ignored — valibot's `object` is not strict) and rejects every
non-object value (`null`, `undefined`, booleans, numbers, strings). -/
theorem C9_empty_object_schema (bf : BlobFormat) (F : Nat)
    (req nul : List String) (fmtOk : StrFormat → String → Bool) (env : Env)
    (g : Nat) :
    convertType bf (F + 1) (.lobject req nul none) = .ok (.sObject []) ∧
    (∀ fields, runV fmtOk env (g + 1) (.sObject []) (.vobj fields) = .ok true) ∧
    (∀ xs, runV fmtOk env (g + 1) (.sObject []) (.varr xs) = .ok true) ∧
    (∀ bs, runV fmtOk env (g + 1) (.sObject []) (.vbytes bs) = .ok true) ∧
    runV fmtOk env (g + 1) (.sObject []) .vnull = .ok false ∧
    runV fmtOk env (g + 1) (.sObject []) .vundefined = .ok false ∧
    (∀ b, runV fmtOk env (g + 1) (.sObject []) (.vbool b) = .ok false) ∧
    (∀ q, runV fmtOk env (g + 1) (.sObject []) (.vnum q) = .ok false) ∧
    (∀ u, runV fmtOk env (g + 1) (.sObject []) (.vstr u) = .ok false) := by
  exact ⟨rfl, fun _ => rfl, fun _ => rfl, fun _ => rfl, rfl, rfl,
    fun _ => rfl, fun _ => rfl, fun _ => rfl⟩

/-- Witness for C9 at concrete inputs. -/
theorem C9_witness :
    convertType .sdk 2 (.lobject ["a"] ["b"] none) = .ok (.sObject []) ∧
    runV fmtTrue envTest 1 (.sObject []) (.vobj []) = .ok true ∧
    runV fmtTrue envTest 1 (.sObject []) (.vstr "s") = .ok false := by
  refine ⟨(C9_empty_object_schema .sdk 1 ["a"] ["b"] fmtTrue envTest 0).1,
    (C9_empty_object_schema .sdk 1 ["a"] ["b"] fmtTrue envTest 0).2.1 [],
    ?_⟩
  exact (C9_empty_object_schema .sdk 1 ["a"] ["b"] fmtTrue envTest 0).2.2.2.2.2.2.2.2 "s"

/-- C1 counterexample: compiling a document whose only def holds a local
ref to a missing def name *succeeds* and returns the complete validator
map — the claim says compilation fails with `RefNotFound` at construction
time with no map returned. -/
theorem C1_construction_returns_full_map :
    lexiconToValibot 9 docDanglingRef {} = .ok [("main", danglingSchema)] := by
  rfl

/-- C1 amended: the `RefNotFound` error for a dangling local ref is
deferred, not raised at construction: `lexiconToValibot` returns the full
validator map, a value that does not exercise the lazy ref validates
fine, and the first value-level validation that dereferences the ref
throws `Ref not found: #missing (resolved to com.example.bad#missing)`. -/
theorem C1_ref_not_found_deferred
    (fmtOk : StrFormat → String → Bool) (f : Nat) :
    lexiconToValibot (f + 2) docDanglingRef {} = .ok [("main", danglingSchema)] ∧
    runV fmtOk (envOf docDanglingRef {}) (f + 4) danglingSchema
      (.vobj []) = .ok true ∧
    runV fmtOk (envOf docDanglingRef {}) (f + 4) danglingSchema
      (.vobj [("a", .vobj [])]) =
      .error (.refNotFound "#missing" "com.example.bad#missing") := by
  exact ⟨rfl, rfl, rfl⟩

/-- Witness for C1 at a concrete format oracle and fuel. -/
theorem C1_witness :
    lexiconToValibot 2 docDanglingRef {} = .ok [("main", danglingSchema)] ∧
    runV fmtTrue (envOf docDanglingRef {}) 4 danglingSchema
      (.vobj []) = .ok true ∧
    runV fmtTrue (envOf docDanglingRef {}) 4 danglingSchema
      (.vobj [("a", .vobj [])]) =
      .error (.refNotFound "#missing" "com.example.bad#missing") :=
  C1_ref_not_found_deferred fmtTrue 0

/-- A second resolution of the same ref string, against the cache state
left by a successful first resolution, returns the identical validator,
cache and console output (cache hit for local and registry refs,
deterministic recomputation of `v.unknown()` for unresolved externals). -/
theorem resolveRefStep_idempotent (fuel : Nat) (env : Env)
    (cache : List (String × VSchema)) (ref : String)
    (s : VSchema) (c : List (String × VSchema)) (w : List String)
    (h : resolveRefStep fuel env cache ref = .ok (s, c, w)) :
    resolveRefStep fuel env c ref = .ok (s, c, w) := by
  simp only [resolveRefStep] at h ⊢
  split at h
  · rename_i s0 hc
    simp only [Except.ok.injEq, Prod.mk.injEq] at h
    obtain ⟨hs, hc2, hw⟩ := h
    subst hs; subst hc2; subst hw
    simp [hc]
  · rename_i hc
    split at h
    · rename_i s0 he1
      simp only [Except.ok.injEq, Prod.mk.injEq] at h
      obtain ⟨hs, hc2, hw⟩ := h
      subst hs; subst hc2; subst hw
      simp [List.lookup]
    · rename_i he1
      split at h
      · rename_i s0 he2
        simp only [Except.ok.injEq, Prod.mk.injEq] at h
        obtain ⟨hs, hc2, hw⟩ := h
        subst hs; subst hc2; subst hw
        simp [List.lookup]
      · rename_i he2
        split at h
        · rename_i hns
          simp only [Except.ok.injEq, Prod.mk.injEq] at h
          obtain ⟨hs, hc2, hw⟩ := h
          subst hs; subst hc2; subst hw
          simp [hc, he1, he2, hns]
        · rename_i hns
          split at h
          · rename_i d hd
            split at h
            · rename_i s0 hcv
              simp only [Except.ok.injEq, Prod.mk.injEq] at h
              obtain ⟨hs, hc2, hw⟩ := h
              subst hs; subst hc2; subst hw
              simp [List.lookup]
            · exact absurd h (by simp)
          · exact absurd h (by simp)

/-- C7: construction never dereferences a ref — a `ref` node compiles to a
lazy indirection without consulting the document's defs (note
`convertType` does not even receive them) — so compiling a cyclic document
terminates; resolving the same ref twice within one compilation yields the
identical validator via the resolution cache; and a concrete
self-referential document compiles, its validator accepts a well-shaped
finite value and rejects a malformed one, recursing only as deep as the
value. -/
theorem C7_lazy_construction_and_cache :
    (∀ (bf : BlobFormat) (F : Nat) (r : String),
      convertType bf (F + 1) (.lref r) = .ok (.sLazyRef r)) ∧
    (∀ (fuel : Nat) (env : Env) (cache : List (String × VSchema))
        (ref : String) (s : VSchema) (c : List (String × VSchema))
        (w : List String),
      resolveRefStep fuel env cache ref = .ok (s, c, w) →
      resolveRefStep fuel env c ref = .ok (s, c, w)) ∧
    lexiconToValibot 9 docCyclic {} = .ok [("main", cyclicSchema)] ∧
    runV fmtTrue (envOf docCyclic {}) 12 cyclicSchema
      (.vobj [("text", .vstr "a"), ("reply", .vobj [("text", .vstr "b")])]) =
      .ok true ∧
    runV fmtTrue (envOf docCyclic {}) 12 cyclicSchema
      (.vobj [("text", .vstr "a"), ("reply", .vobj [])]) = .ok false :=
  ⟨fun _ _ _ => rfl, resolveRefStep_idempotent, rfl, rfl, rfl⟩

/-- Witness for C7: the cache-idempotence part applied to a concrete
first resolution of `#main` in the cyclic document. -/
theorem C7_witness :
    resolveRefStep 9 (envOf docCyclic {}) [("ex.cyc#main", cyclicSchema)]
      "#main" = .ok (cyclicSchema, [("ex.cyc#main", cyclicSchema)], []) :=
  C7_lazy_construction_and_cache.2.1 9 (envOf docCyclic {}) [] "#main"
    cyclicSchema [("ex.cyc#main", cyclicSchema)] [] (by rfl)

/-- C8 counterexample: for a document holding an unresolvable external
ref, the compiled output of `lexiconToValibot` is a bare validator map
with no diagnostics component, and the unresolved-external event surfaces
as the resolver's `console.warn` emission (third component of
`resolveRefStep`) at resolution time — the claim says the event is
reported in a diagnostics list returned alongside the compiled output and
never via a global log call. -/
theorem C8_counterexample :
    lexiconToValibot 9 docExternalRef {} =
      .ok [("main", .sObject [("a", .sOptional (.sLazyRef "other.ns#thing"))])] ∧
    resolveRefStep 9 (envOf docExternalRef {}) [] "other.ns#thing" =
      .ok (.sUnknown, [], [warnUnresolved "other.ns#thing"]) ∧
    runV fmtTrue (envOf docExternalRef {}) 9
      (.sObject [("a", .sOptional (.sLazyRef "other.ns#thing"))])
      (.vobj [("a", .vnum 5)]) = .ok true := by
  exact ⟨rfl, rfl, rfl⟩

/-- C8 amended: a normalized ref whose namespace differs from the current
document's id and which is absent from the external registry (under both
keys) resolves non-fatally to the accept-any `v.unknown()` validator, so
compilation and validation proceed; the event is reported through the
global console (`console.warn`, the emission component of
`resolveRefStep`), not in a diagnostics list returned with the compiled
output. -/
theorem C8_external_ref_fallback (F : Nat) (env : Env)
    (cache : List (String × VSchema)) (ref : String)
    (h1 : env.externalRefs.lookup ref = none)
    (h2 : env.externalRefs.lookup (normalizeRef env.lexiconId ref) = none)
    (h3 : cache.lookup (normalizeRef env.lexiconId ref) = none)
    (h4 : (splitResolved (normalizeRef env.lexiconId ref)).1 ≠ env.lexiconId) :
    resolveRefStep F env cache ref =
      .ok (.sUnknown, cache, [warnUnresolved ref]) ∧
    resolvePure F env ref = .ok .sUnknown ∧
    (∀ (fmtOk : StrFormat → String → Bool) (g : Nat) (v : Val),
      runV fmtOk env (g + 1) .sUnknown v = .ok true) ∧
    (∀ (fmtOk : StrFormat → String → Bool) (g : Nat) (v : Val),
      runV fmtOk env (g + 2) (.sLazyRef ref) v = .ok true) := by
  have hpure : ∀ (F' : Nat), resolvePure F' env ref = .ok .sUnknown := by
    intro F'
    simp [resolvePure, h1, h2, h4]
  refine ⟨?_, hpure F, fun fmtOk g v => rfl, fun fmtOk g v => ?_⟩
  · simp [resolveRefStep, h1, h2, h3, h4]
  · show (do
        let s' ← resolvePure (g + 1) env ref
        runV fmtOk env (g + 1) s' v) = .ok true
    rw [hpure (g + 1)]
    rfl

/-- Witness for C8 at the concrete unresolved external ref
`other.ns#thing` of `docExternalRef`. -/
theorem C8_witness :
    resolveRefStep 9 (envOf docExternalRef {}) [] "other.ns#thing" =
      .ok (.sUnknown, [], [warnUnresolved "other.ns#thing"]) ∧
    resolvePure 9 (envOf docExternalRef {}) "other.ns#thing" =
      .ok .sUnknown ∧
    runV fmtTrue (envOf docExternalRef {}) 1 .sUnknown (.vnum 5) = .ok true ∧
    runV fmtTrue (envOf docExternalRef {}) 2 (.sLazyRef "other.ns#thing")
      (.vnum 5) = .ok true := by
  have h := C8_external_ref_fallback 9 (envOf docExternalRef {}) []
    "other.ns#thing" rfl rfl rfl (by decide)
  exact ⟨h.1, h.2.1, h.2.2.1 fmtTrue 0 (.vnum 5), h.2.2.2 fmtTrue 0 (.vnum 5)⟩

/-- C4 counterexample: for an integer schema carrying both
`enum: [1, 2]` and `const: 3`, the compiled validator is the enum
picklist: it rejects the const literal `3` and accepts the enum member
`1` — the claim says it accepts exactly the const literal. -/
theorem C4_counterexample :
    convertInteger { enum := some [1, 2], const := some 3 } =
      .sPicklistI [1, 2] ∧
    runV fmtTrue envTest 1
      (convertInteger { enum := some [1, 2], const := some 3 })
      (.vnum 3) = .ok false ∧
    runV fmtTrue envTest 1
      (convertInteger { enum := some [1, 2], const := some 3 })
      (.vnum 1) = .ok true := by
  exact ⟨rfl, rfl, rfl⟩

/-- C4 amended: a present *non-empty* `enum` takes precedence over
everything, `const` included: acceptance is then exactly membership in the
enum list, with range/length checks dropped.  Only without a non-empty
enum does `const` give an exact-literal match.  With neither, an integer
schema checks number-ness, integer-ness and the inclusive
`minimum`/`maximum` bounds, and a string schema checks string-ness, the
inclusive `minLength`/`maxLength` bounds and the format check when a
`format` is declared. -/
theorem C4_enum_overrides_const (fmtOk : StrFormat → String → Bool)
    (env : Env) (f : Nat) :
    (∀ (s : LexIntegerT) (e : Int) (es : List Int) (v : Val),
      s.enum = some (e :: es) →
      runV fmtOk env (f + 1) (convertInteger s) v =
        .ok (intMemberOk (e :: es) v)) ∧
    (∀ (s : LexIntegerT) (c : Int) (v : Val),
      s.enum = none ∨ s.enum = some [] → s.const = some c →
      runV fmtOk env (f + 1) (convertInteger s) v = .ok (intLitOk c v)) ∧
    (∀ (s : LexIntegerT) (v : Val),
      s.enum = none ∨ s.enum = some [] → s.const = none →
      runV fmtOk env (f + 1) (convertInteger s) v =
        .ok (numberPipeOk (integerChecks s.minimum s.maximum) v)) ∧
    (∀ (s : LexStringT) (e : String) (es : List String) (v : Val),
      s.enum = some (e :: es) →
      runV fmtOk env (f + 1) (convertString s) v =
        .ok (strMemberOk (e :: es) v)) ∧
    (∀ (s : LexStringT) (c : String) (v : Val),
      s.enum = none ∨ s.enum = some [] → s.const = some c →
      runV fmtOk env (f + 1) (convertString s) v = .ok (strLitOk c v)) ∧
    (∀ (s : LexStringT) (v : Val),
      s.enum = none ∨ s.enum = some [] → s.const = none →
      runV fmtOk env (f + 1) (convertString s) v =
        .ok (stringPipeOk fmtOk
          (stringChecks s.minLength s.maxLength s.format) v)) ∧
    (∀ (mi ma : Option Int) (q : Rat),
      numberPipeOk (integerChecks mi ma) (.vnum q) =
        (decide (q.den = 1) &&
         (match mi with | some m => decide ((m : Rat) ≤ q) | none => true) &&
         (match ma with | some m => decide (q ≤ (m : Rat)) | none => true))) ∧
    (∀ (mi ma : Option Nat) (fo : Option StrFormat) (u : String),
      stringPipeOk fmtOk (stringChecks mi ma fo) (.vstr u) =
        ((match mi with | some n => decide (n ≤ u.length) | none => true) &&
         (match ma with | some n => decide (u.length ≤ n) | none => true) &&
         (match fo with | some fc => fmtOk fc u | none => true))) := by
  refine ⟨?_, ?_, ?_, ?_, ?_, ?_, ?_, ?_⟩
  · intro s e es v hs
    have hconv : convertInteger s = .sPicklistI (e :: es) := by
      unfold convertInteger
      rw [hs]
    rw [hconv]; rfl
  · intro s c v hs hc
    have hconv : convertInteger s = .sLitInt c := by
      rcases hs with hs | hs <;> (unfold convertInteger; rw [hs, hc])
    rw [hconv]; rfl
  · intro s v hs hc
    have hconv : convertInteger s =
        .sNumber (integerChecks s.minimum s.maximum) := by
      rcases hs with hs | hs <;> (unfold convertInteger; rw [hs, hc]) <;> rfl
    rw [hconv]; rfl
  · intro s e es v hs
    have hconv : convertString s = .sPicklistS (e :: es) := by
      unfold convertString
      rw [hs]
    rw [hconv]; rfl
  · intro s c v hs hc
    have hconv : convertString s = .sLitStr c := by
      rcases hs with hs | hs <;> (unfold convertString; rw [hs, hc])
    rw [hconv]; rfl
  · intro s v hs hc
    have hconv : convertString s =
        .sString (stringChecks s.minLength s.maxLength s.format) := by
      rcases hs with hs | hs <;> (unfold convertString; rw [hs, hc]) <;> rfl
    rw [hconv]; rfl
  · intro mi ma q
    cases mi <;> cases ma <;>
      simp [numberPipeOk, integerChecks, numCheckOk, List.all,
        Bool.and_assoc]
  · intro mi ma fo u
    cases mi <;> cases ma <;> cases fo <;>
      simp [stringPipeOk, stringChecks, strCheckOk, List.all,
        Bool.and_assoc]

/-- Witness for C4: the amended precedence applied at concrete schemas and
values. -/
theorem C4_witness :
    runV fmtTrue envTest 1
      (convertInteger { enum := some [1, 2], const := some 3 })
      (.vnum 1) = .ok (intMemberOk [1, 2] (.vnum 1)) ∧
    runV fmtTrue envTest 1
      (convertInteger { const := some 3, minimum := some 0 })
      (.vnum 3) = .ok (intLitOk 3 (.vnum 3)) ∧
    runV fmtTrue envTest 1
      (convertInteger { minimum := some 0, maximum := some 5 })
      (.vnum 4) =
      .ok (numberPipeOk (integerChecks (some 0) (some 5)) (.vnum 4)) ∧
    runV fmtTrue envTest 1
      (convertString { enum := some ["a"], const := some "z" })
      (.vstr "a") = .ok (strMemberOk ["a"] (.vstr "a")) ∧
    runV fmtTrue envTest 1
      (convertString { const := some "z", maxLength := some 1 })
      (.vstr "z") = .ok (strLitOk "z" (.vstr "z")) ∧
    runV fmtTrue envTest 1
      (convertString { minLength := some 1, maxLength := some 3 })
      (.vstr "hi") =
      .ok (stringPipeOk fmtTrue (stringChecks (some 1) (some 3) none)
        (.vstr "hi")) := by
  have h := C4_enum_overrides_const fmtTrue envTest 0
  exact ⟨h.1 _ 1 [2] (.vnum 1) rfl,
    h.2.1 _ 3 (.vnum 3) (Or.inl rfl) rfl,
    h.2.2.1 _ (.vnum 4) (Or.inl rfl) rfl,
    h.2.2.2.1 _ "a" [] (.vstr "a") rfl,
    h.2.2.2.2.1 _ "z" (.vstr "z") (Or.inl rfl) rfl,
    h.2.2.2.2.2.1 _ (.vstr "hi") (Or.inl rfl) rfl⟩

/-- An object validator with a single declared property accepts exactly
what the entry's (possibly wrapped) validator says about the property
value. -/
theorem runV_object_single (fmtOk : StrFormat → String → Bool) (env : Env)
    (G : Nat) (p : String) (entry : VSchema) (fields : List (String × Val))
    (b : Bool)
    (h : runV fmtOk env G entry (getField (.vobj fields) p) = .ok b) :
    runV fmtOk env (G + 1) (.sObject [(p, entry)]) (.vobj fields) = .ok b := by
  simp only [runV, isJsObjectNotNull, if_true, List.foldlM_cons,
    List.foldlM_nil]
  rw [h]
  simp

/-- C5 counterexample: a *required, non-nullable* property whose schema is
`unknown` compiles to a plain `v.unknown()` entry, and the object
validator then *accepts* both the value where the property is missing and
the one where it is `null` — the claim says a required non-nullable
property rejects missing and rejects null for every declared property. -/
theorem C5_counterexample :
    convertObject (convertType .sdk 2) ["p"] [] (some [("p", .lunknown)]) =
      .ok (.sObject [("p", .sUnknown)]) ∧
    runV fmtTrue envTest 2 (.sObject [("p", .sUnknown)]) (.vobj []) =
      .ok true ∧
    runV fmtTrue envTest 2 (.sObject [("p", .sUnknown)])
      (.vobj [("p", .vnull)]) = .ok true := by
  exact ⟨rfl, rfl, rfl⟩

/-- C5 amended: the required/nullable truth table holds for every property
whose own compiled validator rejects `undefined` and rejects `null` (all
primitive, object, array, blob and cid-link schemas do); a property whose
compiled validator accepts those values — an `unknown`-typed property, or
a ref resolving to the accept-any fallback — is accepted in every cell.
For a property `p` with such a validator: required & non-nullable —
missing rejected, null rejected, matching value accepted; required &
nullable — missing rejected, null accepted, value accepted; optional &
non-nullable — missing accepted, null rejected, value accepted; optional &
nullable — missing, null and value all accepted; and the wrapping order is
nullable first, then optional. -/
theorem C5_truth_table (fmtOk : StrFormat → String → Bool) (env : Env)
    (f g : Nat) (p : String) (node : LexNode) (innerS : VSchema) (v : Val)
    (hconv : convertType env.blobFormat f node = .ok innerS)
    (hU : runV fmtOk env g innerS .vundefined = .ok false)
    (hN : runV fmtOk env g innerS .vnull = .ok false)
    (hv : runV fmtOk env g innerS v = .ok true) :
    (convertObject (convertType env.blobFormat f) [p] [] (some [(p, node)]) =
      .ok (.sObject [(p, innerS)])) ∧
    runV fmtOk env (g + 1) (.sObject [(p, innerS)]) (.vobj []) = .ok false ∧
    runV fmtOk env (g + 1) (.sObject [(p, innerS)])
      (.vobj [(p, .vnull)]) = .ok false ∧
    runV fmtOk env (g + 1) (.sObject [(p, innerS)])
      (.vobj [(p, v)]) = .ok true ∧
    (convertObject (convertType env.blobFormat f) [p] [p] (some [(p, node)]) =
      .ok (.sObject [(p, .sNullable innerS)])) ∧
    runV fmtOk env (g + 2) (.sObject [(p, .sNullable innerS)])
      (.vobj []) = .ok false ∧
    runV fmtOk env (g + 2) (.sObject [(p, .sNullable innerS)])
      (.vobj [(p, .vnull)]) = .ok true ∧
    runV fmtOk env (g + 2) (.sObject [(p, .sNullable innerS)])
      (.vobj [(p, v)]) = .ok true ∧
    (convertObject (convertType env.blobFormat f) [] [] (some [(p, node)]) =
      .ok (.sObject [(p, .sOptional innerS)])) ∧
    runV fmtOk env (g + 2) (.sObject [(p, .sOptional innerS)])
      (.vobj []) = .ok true ∧
    runV fmtOk env (g + 2) (.sObject [(p, .sOptional innerS)])
      (.vobj [(p, .vnull)]) = .ok false ∧
    runV fmtOk env (g + 2) (.sObject [(p, .sOptional innerS)])
      (.vobj [(p, v)]) = .ok true ∧
    (convertObject (convertType env.blobFormat f) [] [p] (some [(p, node)]) =
      .ok (.sObject [(p, .sOptional (.sNullable innerS))])) ∧
    runV fmtOk env (g + 3) (.sObject [(p, .sOptional (.sNullable innerS))])
      (.vobj []) = .ok true ∧
    runV fmtOk env (g + 3) (.sObject [(p, .sOptional (.sNullable innerS))])
      (.vobj [(p, .vnull)]) = .ok true ∧
    runV fmtOk env (g + 3) (.sObject [(p, .sOptional (.sNullable innerS))])
      (.vobj [(p, v)]) = .ok true := by
  have hget : ∀ (x : Val), getField (.vobj [(p, x)]) p = x := by
    intro x
    simp [getField, List.lookup]
  have hgetm : getField (Val.vobj []) p = .vundefined := by
    simp [getField, List.lookup]
  refine ⟨?_, ?_, ?_, ?_, ?_, ?_, ?_, ?_, ?_, ?_, ?_, ?_, ?_, ?_, ?_, ?_⟩
  · simp [convertObject, convertEntries, hconv]
  · exact runV_object_single fmtOk env g p innerS [] false
      (by rw [hgetm]; exact hU)
  · exact runV_object_single fmtOk env g p innerS [(p, .vnull)] false
      (by rw [hget]; exact hN)
  · exact runV_object_single fmtOk env g p innerS [(p, v)] true
      (by rw [hget]; exact hv)
  · simp [convertObject, convertEntries, hconv]
  · exact runV_object_single fmtOk env (g + 1) p (.sNullable innerS) [] false
      (by rw [hgetm]; exact hU)
  · exact runV_object_single fmtOk env (g + 1) p (.sNullable innerS)
      [(p, .vnull)] true (by rw [hget]; rfl)
  · exact runV_object_single fmtOk env (g + 1) p (.sNullable innerS)
      [(p, v)] true (by rw [hget]; cases v <;> first | rfl | exact hv)
  · simp [convertObject, convertEntries, hconv]
  · exact runV_object_single fmtOk env (g + 1) p (.sOptional innerS) [] true
      (by rw [hgetm]; rfl)
  · exact runV_object_single fmtOk env (g + 1) p (.sOptional innerS)
      [(p, .vnull)] false (by rw [hget]; exact hN)
  · exact runV_object_single fmtOk env (g + 1) p (.sOptional innerS)
      [(p, v)] true (by rw [hget]; cases v <;> first | rfl | exact hv)
  · simp [convertObject, convertEntries, hconv]
  · exact runV_object_single fmtOk env (g + 2) p
      (.sOptional (.sNullable innerS)) [] true (by rw [hgetm]; rfl)
  · exact runV_object_single fmtOk env (g + 2) p
      (.sOptional (.sNullable innerS)) [(p, .vnull)] true (by rw [hget]; rfl)
  · exact runV_object_single fmtOk env (g + 2) p
      (.sOptional (.sNullable innerS)) [(p, v)] true
      (by rw [hget]; cases v <;> first | rfl | exact hv)

/-- Witness for C5 at a concrete string-typed property. -/
theorem C5_witness :
    (convertObject (convertType envTest.blobFormat 1) ["text"] []
      (some [("text", .lstring {})]) = .ok (.sObject [("text", .sString [])])) ∧
    runV fmtTrue envTest 2 (.sObject [("text", .sString [])])
      (.vobj []) = .ok false ∧
    runV fmtTrue envTest 2 (.sObject [("text", .sString [])])
      (.vobj [("text", .vnull)]) = .ok false ∧
    runV fmtTrue envTest 2 (.sObject [("text", .sString [])])
      (.vobj [("text", .vstr "hi")]) = .ok true := by
  have h := C5_truth_table fmtTrue envTest 1 1 "text" (.lstring {})
    (.sString []) (.vstr "hi") rfl rfl rfl rfl
  exact ⟨h.1, h.2.1, h.2.2.1, h.2.2.2.1⟩

/-- C6 counterexample: under `format: "wire"`, a record whose body itself
declares a `$type` property loses the injected literal — the object-spread
override replaces `v.literal(id)` with the body's own `$type` validator,
so the compiled validator accepts an object whose `$type` is *not* the
def's fully qualified name (and even one with no `$type` at all) — the
claim says every wire-compiled record validator requires `$type` to equal
the literal id. -/
theorem C6_counterexample :
    lexiconToValibot 9 docTypeOverride ⟨[], some .wire⟩ =
      .ok [("main", .sObject [("$type", .sOptional (.sString []))])] ∧
    runV fmtTrue (envOf docTypeOverride ⟨[], some .wire⟩) 9
      (.sObject [("$type", .sOptional (.sString []))])
      (.vobj [("$type", .vstr "not-ex.rec")]) = .ok true ∧
    runV fmtTrue (envOf docTypeOverride ⟨[], some .wire⟩) 9
      (.sObject [("$type", .sOptional (.sString []))])
      (.vobj []) = .ok true := by
  exact ⟨rfl, rfl, rfl⟩

/-- C6 amended: under `format: "wire"` every record-kind def is re-wrapped
as `v.object({$type: v.literal(t), ...entries})` with `t = id` for `main`
and `id#defName` otherwise; when the record body does not itself declare a
`$type` property (the JS object keys being unique), the wrap prepends the
literal entry, and any accepted value must then carry `$type` equal to the
literal — but a body-declared `$type` property overrides the injected
literal via spread semantics.  Under `format: "sdk"` (including the
default when no format is given) no wrap is ever applied: the compiled
validator is exactly the dispatched one. -/
theorem C6_wire_type_injection (F : Nat) (lexId defName : String)
    (req nul : List String) (props : Option (List (String × LexNode)))
    (bodyS : VSchema)
    (hbody : convertType .wire F (.lrecord req nul props) = .ok bodyS) :
    compileDef F .wire lexId defName (.lrecord req nul props) =
      .ok (some (.sObject (jsSpread [("$type",
        .sLitStr (recordTypeTag lexId defName))] (entriesOf bodyS)))) ∧
    ((entriesOf bodyS).lookup "$type" = none →
      ((entriesOf bodyS).map Prod.fst).Nodup →
      jsSpread [("$type", .sLitStr (recordTypeTag lexId defName))]
          (entriesOf bodyS) =
        ("$type", .sLitStr (recordTypeTag lexId defName)) :: entriesOf bodyS) ∧
    (∀ (fmtOk : StrFormat → String → Bool) (env : Env) (g : Nat) (v : Val),
      runV fmtOk env (g + 1)
        (.sObject (("$type", .sLitStr (recordTypeTag lexId defName)) ::
          entriesOf bodyS)) v = .ok true →
      getField v "$type" = .vstr (recordTypeTag lexId defName)) ∧
    (∀ (d : LexNode), isXrpcDef d = false →
      compileDef F .sdk lexId defName d = (convertType .sdk F d).map some) ∧
    (∀ (fl : Nat) (lex : LexiconInput) (er : List (String × VSchema)),
      lexiconToValibot fl lex ⟨er, none⟩ =
        lexiconToValibot fl lex ⟨er, some .sdk⟩) := by
  refine ⟨?_, ?_, ?_, ?_, fun fl lex er => rfl⟩
  · simp [compileDef, isXrpcDef, isRecordDef, hbody, recordTypeTag]
  · intro hlook hnodup
    apply jsSpread_fresh
    · intro kv hkv kv' hkv'
      have hne : kv.1 ≠ "$type" := lookup_none_keys hlook kv hkv
      rcases List.mem_singleton.mp hkv' with rfl
      exact fun hcontra => hne hcontra.symm
    · exact hnodup
  · intro fmtOk env g v hacc
    by_cases hobj : isJsObjectNotNull v = true
    · have hfold := hacc
      simp only [runV, hobj, if_true] at hfold
      have hhead := foldlM_and_head_true hfold
      cases g with
      | zero => simp [runV] at hhead
      | succ g' =>
        simp only [runV] at hhead
        cases hf : getField v "$type" with
        | vstr u =>
          rw [hf] at hhead
          have hu : u = recordTypeTag lexId defName := by
            simpa [pure, Except.pure] using hhead
          rw [hu]
        | vundefined => rw [hf] at hhead; simp [pure, Except.pure] at hhead
        | vnull => rw [hf] at hhead; simp [pure, Except.pure] at hhead
        | vbool b => rw [hf] at hhead; simp [pure, Except.pure] at hhead
        | vnum q => rw [hf] at hhead; simp [pure, Except.pure] at hhead
        | varr xs => rw [hf] at hhead; simp [pure, Except.pure] at hhead
        | vobj fs => rw [hf] at hhead; simp [pure, Except.pure] at hhead
        | vbytes bs => rw [hf] at hhead; simp [pure, Except.pure] at hhead
        | vblobref r m sz =>
          rw [hf] at hhead; simp [pure, Except.pure] at hhead
    · have hobj' : isJsObjectNotNull v = false := by
        simpa using hobj
      simp [runV, hobj', pure, Except.pure] at hacc
  · intro d hd
    cases hcv : convertType .sdk F d with
    | ok s => simp [compileDef, hd, hcv, Except.map]
    | error e => simp [compileDef, hd, hcv, Except.map]

/-- Witness for C6 at the concrete wire record `docWireRecord`. -/
theorem C6_witness :
    compileDef 3 .wire "ex.rec" "main"
      (.lrecord ["text"] [] (some [("text", .lstring { maxLength := some 3 })])) =
      .ok (some (.sObject (jsSpread [("$type",
        .sLitStr (recordTypeTag "ex.rec" "main"))]
        (entriesOf (.sObject [("text", .sString [.maxLength 3])]))))) ∧
    jsSpread [("$type", .sLitStr (recordTypeTag "ex.rec" "main"))]
        (entriesOf (.sObject [("text", .sString [.maxLength 3])])) =
      ("$type", .sLitStr (recordTypeTag "ex.rec" "main")) ::
        entriesOf (.sObject [("text", .sString [.maxLength 3])]) ∧
    getField (.vobj [("$type", .vstr "ex.rec"), ("text", .vstr "hi")])
      "$type" = .vstr (recordTypeTag "ex.rec" "main") ∧
    compileDef 3 .sdk "ex.rec" "main"
      (.lrecord ["text"] [] (some [("text", .lstring { maxLength := some 3 })])) =
      (convertType .sdk 3 (.lrecord ["text"] []
        (some [("text", .lstring { maxLength := some 3 })]))).map some ∧
    lexiconToValibot 3 docWireRecord ⟨[], none⟩ =
      lexiconToValibot 3 docWireRecord ⟨[], some .sdk⟩ := by
  have h := C6_wire_type_injection 3 "ex.rec" "main" ["text"] []
    (some [("text", .lstring { maxLength := some 3 })])
    (.sObject [("text", .sString [.maxLength 3])]) rfl
  refine ⟨h.1, h.2.1 rfl (by decide), ?_, h.2.2.2.1 _ rfl,
    h.2.2.2.2 3 docWireRecord []⟩
  exact h.2.2.1 fmtTrue envTest 2
    (.vobj [("$type", .vstr "ex.rec"), ("text", .vstr "hi")]) (by rfl)
